import Mathlib

/-!
# Verification of the elite-ticket-ingest core (src/app.py)

A shallow embedding of the fare/tax ingestion service in `src/app.py`:
the ticket parser `parse_ticket_pdf` (modelled from the raw extracted
text onward; the binary-PDF-to-text conversion is an external
collaborator), the rule store `upsert_rule`, the lookup `find_rule` and
the quote computation `patch_fare`.

Modelling conventions:
* Monetary values are exact rationals (`ℚ`).  Every amount the parser
  accepts matches `\d{1,3}(,\d{3})*\.\d{2}`, i.e. an exact multiple of
  1/100, so rational arithmetic coincides with the Python float
  arithmetic on all quantities the claims are about.
* `round(x, 2)` is modelled by `pyRound2`: scale by 100, round half to
  even (Python 3 `round` semantics), unscale.
* Python `re` searches are modelled by hand-written leftmost scanners
  over `List Char` that reproduce the greedy/backtracking behaviour of
  each concrete pattern appearing in the source.
* The JSON rule store is modelled as an association list from key
  strings to records; `rules[key] = r` replaces the first binding of
  the key in place, or appends a new binding.
-/

/-- Round half to even at two decimals, the model of Python
`round(x, 2)` over exact rationals: `q * 100 = (q.num * 100) / q.den`
is rounded to the integer `c` (to the nearer integer, ties to even) and
the result is `c / 100`.  Written on numerator and denominator so that
it evaluates by kernel reduction; `pyRound2_eq_round` below checks it
against the mathematical rounding functions. -/
def pyRound2 (q : ℚ) : ℚ :=
  let n := q.num * 100
  let d : ℤ := q.den
  let f := Int.fdiv n d
  let r := n - f * d
  let c := if 2 * r = d then (if f % 2 = 0 then f else f + 1)
           else if 2 * r < d then f else f + 1
  mkRat c 100

/-- Rational addition, written on numerators and denominators so that
it evaluates by kernel reduction; `qAdd_eq` below identifies it with
`+`. -/
def qAdd (a b : ℚ) : ℚ :=
  mkRat (a.num * (b.den : ℤ) + b.num * (a.den : ℤ)) (a.den * b.den)

/-- Rational subtraction in the same style; `qSub_eq` identifies it
with `-`. -/
def qSub (a b : ℚ) : ℚ :=
  mkRat (a.num * (b.den : ℤ) - b.num * (a.den : ℤ)) (a.den * b.den)

/-- Rational multiplication in the same style; `qMul_eq` identifies it
with `*`. -/
def qMul (a b : ℚ) : ℚ :=
  mkRat (a.num * b.num) (a.den * b.den)

/-- Division by 100 in the same style; `qDiv100_eq` identifies it with
`· / 100`. -/
def qDiv100 (a : ℚ) : ℚ :=
  mkRat a.num (a.den * 100)

/-- Python `max(a, b)` (the first argument wins ties); `qMax_eq`
identifies it with `max`. -/
def qMax (a b : ℚ) : ℚ :=
  if a < b then b else a

/-- The five tax components tracked by the parser
(`codes = ("YQ","YR","XT","GC","I9")`, each initialised to `0.0`). -/
structure TaxComponents where
  YQ : ℚ := 0
  YR : ℚ := 0
  XT : ℚ := 0
  GC : ℚ := 0
  I9 : ℚ := 0
deriving DecidableEq, Repr

/-- The five tax codes, used to drive the per-code loops of the parser. -/
inductive TaxCode where
  | YQ | YR | XT | GC | I9
deriving DecidableEq, Repr

/-- Loop order of the source: `codes = ("YQ","YR","XT","GC","I9")`. -/
def taxCodes : List TaxCode := [.YQ, .YR, .XT, .GC, .I9]

/-- The code token as it appears in the text. -/
def TaxCode.chars : TaxCode → List Char
  | .YQ => ['Y', 'Q']
  | .YR => ['Y', 'R']
  | .XT => ['X', 'T']
  | .GC => ['G', 'C']
  | .I9 => ['I', '9']

/-- Model of `components[c]`. -/
def TaxComponents.get (t : TaxComponents) : TaxCode → ℚ
  | .YQ => t.YQ
  | .YR => t.YR
  | .XT => t.XT
  | .GC => t.GC
  | .I9 => t.I9

/-- Model of `components[c] = v`. -/
def TaxComponents.set (t : TaxComponents) : TaxCode → ℚ → TaxComponents
  | .YQ, v => { t with YQ := v }
  | .YR, v => { t with YR := v }
  | .XT, v => { t with XT := v }
  | .GC, v => { t with GC := v }
  | .I9, v => { t with I9 := v }

/-- The dictionary returned by `parse_ticket_pdf`: carrier, route,
currency, the component map (`"base"` plus the five codes) and total. -/
structure ParsedTicket where
  carrier : String
  route : String
  currency : String
  base : ℚ
  components : TaxComponents
  total : ℚ
deriving DecidableEq, Repr

/-- A value of the rule store: optional per-field offsets plus the
verification stamp.  A field is `none` until some ingestion has
recorded a nonzero value for it (`r = rules.get(key, {})`). -/
structure RuleRecord where
  yqyr_offset : Option ℚ := none
  xt_offset : Option ℚ := none
  gc_tax : Option ℚ := none
  i9_tax : Option ℚ := none
  last_verified_at : Option String := none
deriving DecidableEq, Repr

/-- The rule store: the JSON object, keyed by
`"CARRIER|ORIGIN-DEST|POS|CURRENCY"` strings. -/
abbrev RuleStore := List (String × RuleRecord)

/-- Model of `rules.get(key)`. -/
def lookupStore (store : RuleStore) (key : String) : Option RuleRecord :=
  match store with
  | [] => none
  | (k, r) :: rest => if k = key then some r else lookupStore rest key

/-- Model of `rules[key] = r`: replace the first binding of `key`, else append. -/
def setStore (store : RuleStore) (key : String) (r : RuleRecord) : RuleStore :=
  match store with
  | [] => [(key, r)]
  | (k, r') :: rest =>
      if k = key then (key, r) :: rest else (k, r') :: setStore rest key r

/-- The ingest key CARRIER|ROUTE|POS|CURRENCY built on line 180. -/
def ingestKey (t : ParsedTicket) (pos : String) : String :=
  t.carrier ++ "|" ++ t.route ++ "|" ++ pos ++ "|" ++ t.currency

/-- The record-merge step of `upsert_rule` (lines 184-194): each derived
value overwrites its field only when it is nonzero (Python float
truthiness), then `last_verified_at` is stamped unconditionally. -/
def mergeRecord (t : ParsedTicket) (today : String) (r : RuleRecord) : RuleRecord :=
  let yqyr := t.components.YQ + t.components.YR
  let xt := t.components.XT
  let gc := t.components.GC
  let i9 := t.components.I9
  let r := if yqyr ≠ 0 then { r with yqyr_offset := some (pyRound2 yqyr) } else r
  let r := if xt ≠ 0 then { r with xt_offset := some (pyRound2 xt) } else r
  let r := if gc ≠ 0 then { r with gc_tax := some (pyRound2 gc) } else r
  let r := if i9 ≠ 0 then { r with i9_tax := some (pyRound2 i9) } else r
  { r with last_verified_at := some today }

/-- Model of `upsert_rule(ticket, pos)`, with the ambient current date passed
explicitly; returns the key, the merged record, and the saved store. -/
def upsertRule (store : RuleStore) (t : ParsedTicket) (pos today : String) :
    String × RuleRecord × RuleStore :=
  let key := ingestKey t pos
  let r := (lookupStore store key).getD {}
  let r := mergeRecord t today r
  (key, r, setStore store key r)

/-- Python `.upper()` restricted to its ASCII action, which is all the
source exercises. -/
def upperStr (s : String) : String :=
  String.mk (s.toList.map Char.toUpper)

/-- The forward key built by `find_rule`. -/
def quoteFwdKey (carrier origin dest currency pos : String) : String :=
  upperStr carrier ++ "|" ++ upperStr origin ++ "-" ++ upperStr dest ++ "|" ++
    upperStr pos ++ "|" ++ upperStr currency

/-- The reversed-route key built by `find_rule`. -/
def quoteRevKey (carrier origin dest currency pos : String) : String :=
  upperStr carrier ++ "|" ++ upperStr dest ++ "-" ++ upperStr origin ++ "|" ++
    upperStr pos ++ "|" ++ upperStr currency

/-- Model of `find_rule(carrier, origin, dest, currency, pos)`: forward key,
then reversed-route key, then `(None, {})`. -/
def findRule (store : RuleStore) (carrier origin dest currency pos : String) :
    Option String × RuleRecord :=
  let key := quoteFwdKey carrier origin dest currency pos
  match lookupStore store key with
  | some r => (some key, r)
  | none =>
      let revKey := quoteRevKey carrier origin dest currency pos
      match lookupStore store revKey with
      | some r => (some revKey, r)
      | none => (none, {})

/-- The response dictionary of `patch_fare`. -/
structure FareQuote where
  rule_key : Option String
  base : ℚ
  yqyr : ℚ
  xt : ℚ
  gc : ℚ
  i9 : ℚ
  selling_platform_total : ℚ
  markup_pct : ℚ
  final_total : ℚ
  currency : String
  pos : String
  carrier : String
  route : String
deriving DecidableEq, Repr

/-- Model of `patch_fare(base_fare, carrier, origin, dest, currency, pos, markup_pct)`. -/
def patchFare (store : RuleStore) (base_fare : ℚ)
    (carrier origin dest currency pos : String) (markup_pct : ℚ) : FareQuote :=
  let kr := findRule store carrier origin dest currency pos
  let rule := kr.2
  let yqyr := rule.yqyr_offset.getD 0
  let xt := rule.xt_offset.getD 0
  let gc := rule.gc_tax.getD 0
  let i9 := rule.i9_tax.getD 0
  let sp_total := pyRound2 (qAdd (qAdd (qAdd (qAdd base_fare yqyr) xt) gc) i9)
  let final_total := pyRound2 (qMul sp_total (qAdd 1 (qDiv100 markup_pct)))
  { rule_key := kr.1
    base := pyRound2 base_fare
    yqyr := yqyr, xt := xt, gc := gc, i9 := i9
    selling_platform_total := sp_total
    markup_pct := markup_pct
    final_total := final_total
    currency := upperStr currency
    pos := upperStr pos
    carrier := upperStr carrier
    route := upperStr origin ++ "-" ++ upperStr dest }

/-! ## Text scanning primitives

Hand-rolled models of the concrete `re` patterns used by
`parse_ticket_pdf`.  All scanners work on `List Char` and return the
leftmost match, mirroring `re.search`/`re.findall` on the ASCII texts
the service consumes (`\s` is modelled by the six ASCII whitespace
characters, `\w` by alphanumerics plus underscore). -/

/-- Python `\s` (ASCII range). -/
def pySpace (c : Char) : Bool :=
  c = ' ' || c = '\t' || c = '\n' || c = '\r' || c.toNat = 11 || c.toNat = 12

/-- Python `\w` (ASCII range), for `\b` word boundaries. -/
def isWordChar (c : Char) : Bool :=
  c.isAlpha || c.isDigit || c = '_'

/-- The class `[A-Z]`. -/
def isUpperAZ (c : Char) : Bool :=
  'A' ≤ c && c ≤ 'Z'

/-- The class `[0-9]`. -/
def isDig (c : Char) : Bool :=
  c.isDigit

/-- A `\b` holds before the current position when the preceding
character (if any) is not a word character; the patterns below only
ever place `\b` next to word characters, so this one-sided test is the
full boundary condition there. -/
def boundaryBefore (prev : Option Char) : Bool :=
  match prev with
  | none => true
  | some c => !isWordChar c

/-- A `\b` holds after a word-character match when the next character
(if any) is not a word character. -/
def boundaryAfter (rest : List Char) : Bool :=
  match rest with
  | [] => true
  | c :: _ => !isWordChar c

/-- Literal-prefix match: consume `pat` from the front of `cs`. -/
def dropLit : List Char → List Char → Option (List Char)
  | [], cs => some cs
  | _, [] => none
  | p :: ps, c :: cs => if p = c then dropLit ps cs else none

/-- Substring containment, the model of Python `pat in T`. -/
def containsLit (pat : List Char) : List Char → Bool
  | [] => (dropLit pat []).isSome
  | c :: cs => (dropLit pat (c :: cs)).isSome || containsLit pat cs

/-- Numeric digit value. -/
def digVal (c : Char) : ℕ :=
  c.toNat - '0'.toNat

/-- After the integer digits of an amount: consume `(,\d{3})*\.\d{2}`.
`acc` is the numeric value of the digits read so far; the result is the
amount in cents together with the unread rest.  The regex
`\d{1,3}(,\d{3})*\.\d{2}` admits at most one parse from a fixed start
position, so no backtracking is needed. -/
def amtTail (acc : ℕ) : List Char → Option (ℕ × List Char)
  | '.' :: d1 :: d2 :: rest =>
      if isDig d1 && isDig d2 then
        some (acc * 100 + digVal d1 * 10 + digVal d2, rest)
      else none
  | ',' :: d1 :: d2 :: d3 :: rest =>
      if isDig d1 && isDig d2 && isDig d3 then
        amtTail (acc * 1000 + digVal d1 * 100 + digVal d2 * 10 + digVal d3) rest
      else none
  | _ => none

/-- Match the amount pattern `[0-9]{1,3}(?:,[0-9]{3})*\.[0-9]{2}`
anchored at the head of `cs`; grouping commas are stripped, i.e. the
value in cents is returned, with the unread rest. -/
def amtAt (cs : List Char) : Option (ℚ × List Char) :=
  let ds := cs.takeWhile isDig
  if ds.length = 0 || 3 < ds.length then none
  else
    match amtTail (ds.foldl (fun a c => a * 10 + digVal c) 0) (cs.drop ds.length) with
    | some (cents, rest) => some (mkRat cents 100, rest)
    | none => none

/-- Leftmost `re.search` of the bare amount pattern. -/
def findFirstAmt : List Char → Option ℚ
  | [] => none
  | c :: cs =>
      match amtAt (c :: cs) with
      | some (q, _) => some q
      | none => findFirstAmt cs

/-- All `re.findall` matches of the bare amount pattern (leftmost,
non-overlapping), as values. -/
def findAllAmts : ℕ → List Char → List ℚ
  | 0, _ => []
  | _ + 1, [] => []
  | fuel + 1, c :: cs =>
      match amtAt (c :: cs) with
      | some (q, rest) => q :: findAllAmts fuel rest
      | none => findAllAmts fuel cs

/-- Match `(?:PGK\s*)?(amt)` anchored at the current position: the
greedy optional prefix is tried first; when the prefix is present the
amount follows an arbitrary whitespace run. -/
def optPgkAmtAt (cs : List Char) : Option ℚ :=
  (match dropLit ['P', 'G', 'K'] cs with
   | some rest =>
       match amtAt (rest.dropWhile pySpace) with
       | some (q, _) => some q
       | none => none
   | none => none)
  <|>
  (match amtAt cs with
   | some (q, _) => some q
   | none => none)

/-- Leftmost `re.search` of `(?:PGK\s*)?(amt)` (used for the base-fare
amount, line 150). -/
def searchOptPgkAmt : List Char → Option ℚ
  | [] => none
  | c :: cs =>
      match optPgkAmtAt (c :: cs) with
      | some q => some q
      | none => searchOptPgkAmt cs

/-- Word search `\bw\b` for an alphanumeric token `w`: leftmost
occurrence with non-word characters (or text ends) on both sides. -/
def wordAt (w : List Char) (prev : Option Char) (cs : List Char) : Bool :=
  boundaryBefore prev &&
    (match dropLit w cs with
     | some rest => boundaryAfter rest
     | none => false)

/-- Scan all positions, threading the previous character for `\b`. -/
def searchWordGo (w : List Char) : Option Char → List Char → Bool
  | prev, [] => wordAt w prev []
  | prev, c :: cs => wordAt w prev (c :: cs) || searchWordGo w (some c) cs

/-- Model of `re.search(r"\bW\b", T)` as a Boolean. -/
def searchWord (w : List Char) (cs : List Char) : Bool :=
  searchWordGo w none cs

/-- Core of `(?:PGK\s*)?(amt)\s*CODE\b` at a fixed position, without
the optional prefix: amount, whitespace run, code token, boundary. -/
def amtCodeCore (code : List Char) (cs : List Char) : Option ℚ :=
  match amtAt cs with
  | some (q, rest) =>
      match dropLit code (rest.dropWhile pySpace) with
      | some rest' => if boundaryAfter rest' then some q else none
      | none => none
  | none => none

/-- The pattern `(?:PGK\s*)?(amt)\s*CODE\b` at a fixed position, greedy optional
prefix first. -/
def amtCodeAt (code : List Char) (cs : List Char) : Option ℚ :=
  (match dropLit ['P', 'G', 'K'] cs with
   | some rest => amtCodeCore code (rest.dropWhile pySpace)
   | none => none)
  <|> amtCodeCore code cs

/-- Leftmost `re.search` of `(?:PGK\s*)?(amt)\s*CODE\b` (the
amount-before-code orderings of lines 118, 136 and 142). -/
def searchAmtCode (code : List Char) : List Char → Option ℚ
  | [] => none
  | c :: cs =>
      match amtCodeAt code (c :: cs) with
      | some q => some q
      | none => searchAmtCode code cs

/-- The class `[:\s]`. -/
def colonSpace (c : Char) : Bool :=
  c = ':' || pySpace c

/-- The pattern `\bCODE\b[:\s]+(amt)` at a fixed position. -/
def codeAmtAt (code : List Char) (prev : Option Char) (cs : List Char) : Option ℚ :=
  if boundaryBefore prev then
    match dropLit code cs with
    | some rest =>
        match rest with
        | c :: rest' =>
            if !isWordChar c && colonSpace c then
              match amtAt (rest'.dropWhile colonSpace) with
              | some (q, _) => some q
              | none => none
            else none
        | [] => none
    | none => none
  else none

/-- Leftmost search of `\bCODE\b[:\s]+(amt)` (line 115). -/
def searchCodeAmtGo (code : List Char) : Option Char → List Char → Option ℚ
  | prev, [] => codeAmtAt code prev []
  | prev, c :: cs =>
      match codeAmtAt code prev (c :: cs) with
      | some q => some q
      | none => searchCodeAmtGo code (some c) cs

/-- Model of the search for code-then-amount on the tax line (line 115). -/
def searchCodeAmt (code : List Char) (cs : List Char) : Option ℚ :=
  searchCodeAmtGo code none cs

/-! ## Carrier, currency and route detection -/

/-- The PX marker test of line 57: the carrier name as a substring, or the standalone code. -/
def pxMarker (T : List Char) : Bool :=
  containsLit (" AIR NIUGINI".toList) T || searchWord ['P', 'X'] T

/-- The CG marker test of line 58: the carrier name as a substring, or the standalone code. -/
def cgMarker (T : List Char) : Bool :=
  containsLit (" PNG AIR".toList) T || searchWord ['C', 'G'] T

/-- Lines 56-58: `carrier = "UNK"`, overwritten by the PX test, then by
the CG test (the later check wins). -/
def detectCarrier (T : List Char) : String :=
  let c := "UNK"
  let c := if pxMarker T then ("PX") else c
  if cgMarker T then ("CG") else c

/-- Model of the currency search of line 62: the captured group, which can only be
the literal `"PGK"`. -/
def findPGK (T : List Char) : Option String :=
  if searchWord ['P', 'G', 'K'] T then some ("PGK") else none

/-- Lines 61-63: `currency = "PGK"`, overwritten by the captured group
when the search succeeds. -/
def detectCurrency (T : List Char) : String :=
  match findPGK T with
  | some c => c
  | none => "PGK"

/-- Stopword blacklist `BAD` (line 66). -/
def BAD : List String :=
  ["FOR", "THE", "PNG", "AIR", "PGK", "TTL", "TAX", "TOTAL", "AMOUNT", "RECEIPT", "END"]

/-- Domestic location codes `PNG` (line 67). -/
def PNGCodes : List String :=
  ["POM", "LAE", "HGU", "RAB", "GUR", "WWK", "HKN", "MAG", "KVG", "PNP", "KRI",
   "GKA", "KMA", "LNV", "BUA", "KIE", "MDU"]

/-- Regional location codes `REG` (line 68). -/
def REGCodes : List String :=
  ["BNE", "CNS", "TSV", "HKG", "SIN", "SYD", "BKK", "MNL", "MEL"]

/-- Model of `IATA = PNG | REG`. -/
def IATA : List String := PNGCodes ++ REGCodes

/-- Take `[A-Z]{3}` from the front. -/
def take3Upper (cs : List Char) : Option (String × List Char) :=
  match cs with
  | a :: b :: c :: rest =>
      if isUpperAZ a && isUpperAZ b && isUpperAZ c then
        some (String.mk [a, b, c], rest)
      else none
  | _ => none

/-- The pattern `\bTO\s+([A-Z]{3})\b` at a fixed position. -/
def toPartAt (prev : Option Char) (cs : List Char) : Option String :=
  if boundaryBefore prev then
    match dropLit ['T', 'O'] cs with
    | some rest =>
        match rest with
        | c :: _ =>
            if pySpace c then
              match take3Upper (rest.dropWhile pySpace) with
              | some (g, rest') => if boundaryAfter rest' then some g else none
              | none => none
            else none
        | [] => none
    | none => none
  else none

/-- The greedy bounded gap `.{0,20}` before `\bTO\s+([A-Z]{3})\b`:
longer gaps are tried first (backtracking order of the greedy
quantifier); gap characters may not be newlines. -/
def gapThenTo : ℕ → Option Char → List Char → Option String
  | 0, prev, cs => toPartAt prev cs
  | budget + 1, prev, cs =>
      (match cs with
       | c :: rest => if c ≠ '\n' then gapThenTo budget (some c) rest else none
       | [] => none)
      <|> toPartAt prev cs

/-- The pattern `\bFROM\s+([A-Z]{3})\b.{0,20}\bTO\s+([A-Z]{3})\b` at a fixed
position. -/
def fromToAt (prev : Option Char) (cs : List Char) : Option (String × String) :=
  if boundaryBefore prev then
    match dropLit ['F', 'R', 'O', 'M'] cs with
    | some rest =>
        match rest with
        | c :: _ =>
            if pySpace c then
              match take3Upper (rest.dropWhile pySpace) with
              | some (g1, rest') =>
                  if boundaryAfter rest' then
                    match gapThenTo 20 (g1.toList.getLast?) rest' with
                    | some g2 => some (g1, g2)
                    | none => none
                  else none
              | none => none
            else none
        | [] => none
    | none => none
  else none

/-- Leftmost search of the FROM/TO pattern (route strategy A, line 75). -/
def searchFromToGo : Option Char → List Char → Option (String × String)
  | prev, [] => fromToAt prev []
  | prev, c :: cs =>
      match fromToAt prev (c :: cs) with
      | some r => some r
      | none => searchFromToGo (some c) cs

/-- Model of the FROM/TO route search of line 75. -/
def searchFromTo (T : List Char) : Option (String × String) :=
  searchFromToGo none T

/-- The pattern `\bLABEL\b[:\s]+([A-Z]{3})` at a fixed position: the shared shape of
the ORIGIN pattern and the tail of the DEST pattern. -/
def labelCodeAt (label : List Char) (prev : Option Char) (cs : List Char) :
    Option String :=
  if boundaryBefore prev then
    match dropLit label cs with
    | some rest =>
        match rest with
        | c :: rest' =>
            if !isWordChar c && colonSpace c then
              match take3Upper (rest'.dropWhile colonSpace) with
              | some (g, _) => some g
              | none => none
            else none
        | [] => none
    | none => none
  else none

/-- Leftmost search of `\bORIGIN\b[:\s]+([A-Z]{3})` (line 80). -/
def searchOriginGo : Option Char → List Char → Option String
  | prev, [] => labelCodeAt ("ORIGIN".toList) prev []
  | prev, c :: cs =>
      match labelCodeAt ("ORIGIN".toList) prev (c :: cs) with
      | some g => some g
      | none => searchOriginGo (some c) cs

/-- Strategy-B origin search. -/
def searchOrigin (T : List Char) : Option String :=
  searchOriginGo none T

/-- The pattern `\bDEST(?:INATION)?\b[:\s]+([A-Z]{3})` at a fixed position: the
greedy optional `INATION` is tried first. -/
def destAt (prev : Option Char) (cs : List Char) : Option String :=
  if boundaryBefore prev then
    match dropLit ['D', 'E', 'S', 'T'] cs with
    | some rest =>
        (match dropLit ("INATION".toList) rest with
         | some rest' =>
             (match rest' with
              | c :: r2 =>
                  if !isWordChar c && colonSpace c then
                    match take3Upper (r2.dropWhile colonSpace) with
                    | some (g, _) => some g
                    | none => none
                  else none
              | [] => none)
         | none => none)
        <|>
        (match rest with
         | c :: r2 =>
             if !isWordChar c && colonSpace c then
               match take3Upper (r2.dropWhile colonSpace) with
               | some (g, _) => some g
               | none => none
             else none
         | [] => none)
    | none => none
  else none

/-- Leftmost search of the DEST pattern (line 81). -/
def searchDestGo : Option Char → List Char → Option String
  | prev, [] => destAt prev []
  | prev, c :: cs =>
      match destAt prev (c :: cs) with
      | some g => some g
      | none => searchDestGo (some c) cs

/-- Strategy-B destination search. -/
def searchDest (T : List Char) : Option String :=
  searchDestGo none T

/-- The separator region of the pair pattern (whitespace run, one
mandatory hyphen, slash or space, whitespace run) followed by
`([A-Z]{3})\b`.  `phase = false` before the mandatory separator
character, `true` after it; the greedy `\s*` prefers consuming, with
the alternative tried on failure (backtracking order). -/
def pairSep : Bool → List Char → Option (String × List Char)
  | false, cs =>
      (match cs with
       | c :: rest => if pySpace c then pairSep false rest else none
       | [] => none)
      <|>
      (match cs with
       | c :: rest => if c = '-' || c = '/' || c = ' ' then pairSep true rest else none
       | [] => none)
  | true, cs =>
      (match cs with
       | c :: rest => if pySpace c then pairSep true rest else none
       | [] => none)
      <|>
      (match take3Upper cs with
       | some (g, rest) => if boundaryAfter rest then some (g, rest) else none
       | none => none)

/-- The full pair pattern of line 86 (two boundary-guarded 3-letter
groups around the separator region) at a fixed position; returns both
groups and the unread rest for non-overlapping `findall`. -/
def pairAt (prev : Option Char) (cs : List Char) : Option (String × String × List Char) :=
  if boundaryBefore prev then
    match take3Upper cs with
    | some (g1, rest) =>
        match pairSep false rest with
        | some (g2, rest') => some (g1, g2, rest')
        | none => none
    | none => none
  else none

/-- Model of `re.findall` of the pair pattern: leftmost, non-overlapping
(scanning resumes after each match).  The previous character is
threaded for the leading `\b`. -/
def findPairsGo : ℕ → Option Char → List Char → List (String × String)
  | 0, _, _ => []
  | _ + 1, _, [] => []
  | fuel + 1, prev, c :: cs =>
      match pairAt prev (c :: cs) with
      | some (a, b, rest) => (a, b) :: findPairsGo fuel (b.toList.getLast?) rest
      | none => findPairsGo fuel (some c) cs

/-- All strategy-C pairs of the text (line 86). -/
def findPairs (T : List Char) : List (String × String) :=
  findPairsGo T.length none T

/-- The validity test of the strategy-C loop (line 89):
`a not in BAD and b not in BAD and a in IATA and b in IATA`. -/
def validPair (p : String × String) : Bool :=
  !BAD.contains p.1 && !BAD.contains p.2 && IATA.contains p.1 && IATA.contains p.2

/-- The pattern `FARE\s+CALCULATION.*?\n([^\n]{0,200})` at a fixed position: the
lazy `.*?` stops at the first newline of the current line, and the
greedy bounded group takes up to 200 characters of the next line. -/
def fareCalcAt (cs : List Char) : Option (List Char) :=
  match dropLit ("FARE".toList) cs with
  | some rest =>
      match rest with
      | c :: _ =>
          if pySpace c then
            match dropLit ("CALCULATION".toList) (rest.dropWhile pySpace) with
            | some rest' =>
                match rest'.dropWhile (· ≠ '\n') with
                | _ :: afterNl => some ((afterNl.takeWhile (· ≠ '\n')).take 200)
                | [] => none
            | none => none
          else none
      | [] => none
  | none => none

/-- Leftmost search of the fare-calculation pattern (line 97). -/
def searchFareCalc : List Char → Option (List Char)
  | [] => none
  | c :: cs =>
      match fareCalcAt (c :: cs) with
      | some g => some g
      | none => searchFareCalc cs

/-- The pattern `^\s*:\s*([^\n]*END[^\n]*)$` at an anchor position (multiline):
whitespace (possibly spanning newlines), a colon, whitespace, then the
rest of the current line, which must contain `END`. -/
def colonEndAt (cs : List Char) : Option (List Char) :=
  match cs.dropWhile pySpace with
  | ':' :: rest =>
      let seg := (rest.dropWhile pySpace).takeWhile (· ≠ '\n')
      if containsLit ("END".toList) seg then some seg else none
  | _ => none

/-- Leftmost multiline search of the colon/END pattern (line 100): the
`^` anchors are the start of the text and every position following a
newline. -/
def searchColonEndGo : Option Char → List Char → Option (List Char)
  | prev, cs =>
      match (if prev = none || prev = some '\n' then colonEndAt cs else none) with
      | some g => some g
      | none =>
          match cs with
          | [] => none
          | c :: rest => searchColonEndGo (some c) rest

/-- Model of the multiline colon/END search of line 100. -/
def searchColonEnd (T : List Char) : Option (List Char) :=
  searchColonEndGo none T

/-- Lines 96-101: the fare-calculation line, `""` when neither pattern
produces a non-empty group. -/
def fcLine (T : List Char) : List Char :=
  let g1 := (searchFareCalc T).getD []
  if g1 = [] then (searchColonEnd T).getD [] else g1

/-- Model of the token findall of line 102: standalone
3-uppercase-letter tokens (digits may be adjacent), leftmost and
non-overlapping. -/
def tokens3Go : ℕ → Option Char → List Char → List String
  | 0, _, _ => []
  | _ + 1, _, [] => []
  | fuel + 1, prev, c :: cs =>
      match c :: cs with
      | a :: b :: d :: rest =>
          if (match prev with | none => true | some p => !isUpperAZ p) &&
             isUpperAZ a && isUpperAZ b && isUpperAZ d &&
             (match rest with | [] => true | e :: _ => !isUpperAZ e) then
            String.mk [a, b, d] :: tokens3Go fuel (some d) rest
          else tokens3Go fuel (some c) cs
      | _ => tokens3Go fuel (some c) cs

/-- All standalone 3-letter tokens of the fare-calculation line. -/
def tokens3 (cs : List Char) : List String :=
  tokens3Go cs.length none cs

/-- The strategy-D token filter (line 103):
`t in IATA and t not in BAD and t != "PGK"`. -/
def fcTokenOk (t : String) : Bool :=
  IATA.contains t && !BAD.contains t && t ≠ "PGK"

/-- Route strategy D (lines 95-105): tokens of the fare-calculation
line, filtered by whitelist, blacklist and the currency code; the first
two survivors are origin and destination. -/
def routeD (T : List Char) : String :=
  let airports := (tokens3 (fcLine T)).filter fcTokenOk
  match airports with
  | a :: b :: _ => a ++ "-" ++ b
  | _ => "UNK-UNK"

/-- Route strategies C then D (lines 85-105). -/
def routeCD (T : List Char) : String :=
  match (findPairs T).find? validPair with
  | some (a, b) => a ++ "-" ++ b
  | none => routeD T

/-- Route strategies B, C, D (lines 79-105). -/
def routeBCD (T : List Char) : String :=
  match searchOrigin T, searchDest T with
  | some a, some b =>
      if IATA.contains a && IATA.contains b then a ++ "-" ++ b else routeCD T
  | _, _ => routeCD T

/-- The full four-strategy route cascade (lines 71-105). -/
def detectRoute (T : List Char) : String :=
  match searchFromTo T with
  | some (a, b) =>
      if IATA.contains a && IATA.contains b then a ++ "-" ++ b else routeBCD T
  | none => routeBCD T

/-! ## Tax components, base and total -/

/-- Pass 1 per code (lines 114-120), on the compact tax line: the
code-then-amount ordering `m`, then the amount-then-code ordering `m2`,
each folded in with `max`. -/
def pass1Code (L : List Char) (comps : TaxComponents) (c : TaxCode) : TaxComponents :=
  let comps :=
    match searchCodeAmt c.chars L with
    | some q => comps.set c (qMax (comps.get c) q)
    | none => comps
  match searchAmtCode c.chars L with
  | some q => comps.set c (qMax (comps.get c) q)
  | none => comps

/-- Pass 1 (lines 112-120): applied to the first line containing the
substring `"TAX"`, when one exists. -/
def pass1 (L : List Char) (comps : TaxComponents) : TaxComponents :=
  taxCodes.foldl (pass1Code L) comps

/-- Pass 2 per line and code (lines 124-138): codes already set are
skipped; a word match of the code takes the first amount on the line,
else the first amount on the following line; otherwise the
amount-then-code ordering is tried on the line. -/
def pass2Code (L : List Char) (next : Option (List Char))
    (comps : TaxComponents) (c : TaxCode) : TaxComponents :=
  if comps.get c > 0 then comps
  else if searchWord c.chars L then
    match findFirstAmt L with
    | some q => comps.set c q
    | none =>
        match next with
        | some L2 =>
            match findFirstAmt L2 with
            | some q => comps.set c q
            | none => comps
        | none => comps
  else
    match searchAmtCode c.chars L with
    | some q => comps.set c (qMax (comps.get c) q)
    | none => comps

/-- Pass 2 (lines 123-138): over all lines in order, threading the
following line for the amount-on-next-line fallback. -/
def pass2 : TaxComponents → List (List Char) → TaxComponents
  | comps, [] => comps
  | comps, L :: rest => pass2 (taxCodes.foldl (pass2Code L rest.head?) comps) rest

/-- One alias step (lines 141-144): the first amount-then-alias match
anywhere in the text is added into XT, rounded to 2 decimals. -/
def aliasStep (T : List Char) (comps : TaxComponents) (al : List Char) :
    TaxComponents :=
  match searchAmtCode al T with
  | some q => comps.set .XT (pyRound2 (qAdd (comps.get .XT) q))
  | none => comps

/-- The alias loop `for alias in ("UN","NX")`. -/
def aliasFold (T : List Char) (comps : TaxComponents) : TaxComponents :=
  [['U', 'N'], ['N', 'X']].foldl (aliasStep T) comps

/-- The complete tax-component extraction (lines 107-144). -/
def taxComponentsOf (T : List Char) (lines : List (List Char)) : TaxComponents :=
  let comps : TaxComponents := {}
  let comps :=
    match lines.find? (fun L => containsLit ("TAX".toList) L) with
    | some L => pass1 L comps
    | none => comps
  let comps := pass2 comps lines
  aliasFold T comps

/-- Model of the fare-keyword test of line 149 as a Boolean: a word
boundary, then `AIR`, an optional whitespace run and `FARE`, or `FARE`
alone, then a word boundary. -/
def fareKwAt (prev : Option Char) (cs : List Char) : Bool :=
  boundaryBefore prev &&
    ((match dropLit ['A', 'I', 'R'] cs with
      | some rest =>
          (match dropLit ("FARE".toList) (rest.dropWhile pySpace) with
           | some rest' => boundaryAfter rest'
           | none => false)
      | none => false)
     ||
     (match dropLit ("FARE".toList) cs with
      | some rest => boundaryAfter rest
      | none => false))

/-- Scan for the fare keyword pattern. -/
def searchFareKwGo : Option Char → List Char → Bool
  | prev, [] => fareKwAt prev []
  | prev, c :: cs => fareKwAt prev (c :: cs) || searchFareKwGo (some c) cs

/-- The regex test of line 149. -/
def searchFareKw (L : List Char) : Bool :=
  searchFareKwGo none L

/-- The alternatives `GRAND\s+TOTAL`, `TOTAL\s+AMOUNT`, `TOTAL\s+FARE` or bare `TOTAL`,
between word boundaries, at a fixed position. -/
def totalKwAt (prev : Option Char) (cs : List Char) : Bool :=
  boundaryBefore prev &&
    ((match dropLit ("GRAND".toList) cs with
      | some rest =>
          (match rest with
           | c :: _ =>
               if pySpace c then
                 match dropLit ("TOTAL".toList) (rest.dropWhile pySpace) with
                 | some rest' => boundaryAfter rest'
                 | none => false
               else false
           | [] => false)
      | none => false)
     ||
     (match dropLit ("TOTAL".toList) cs with
      | some rest =>
          (match rest with
           | c :: _ =>
               if pySpace c then
                 (match dropLit ("AMOUNT".toList) (rest.dropWhile pySpace) with
                  | some rest' => boundaryAfter rest'
                  | none => false)
                 ||
                 (match dropLit ("FARE".toList) (rest.dropWhile pySpace) with
                  | some rest' => boundaryAfter rest'
                  | none => false)
               else false
           | [] => false)
          || boundaryAfter rest
      | none => false))

/-- Scan for the total keyword pattern. -/
def searchTotalKwGo : Option Char → List Char → Bool
  | prev, [] => totalKwAt prev []
  | prev, c :: cs => totalKwAt prev (c :: cs) || searchTotalKwGo (some c) cs

/-- The regex test of line 156. -/
def searchTotalKw (L : List Char) : Bool :=
  searchTotalKwGo none L

/-- Lines 147-152: the maximum amount over all lines matching the base
keywords (`"BASE FARE" in L` or the fare-keyword regex); 0.0 when no
such line yields an amount. -/
def extractBase (lines : List (List Char)) : ℚ :=
  lines.foldl
    (fun b L =>
      if containsLit ("BASE FARE".toList) L || searchFareKw L then
        match searchOptPgkAmt L with
        | some q => qMax b q
        | none => b
      else b) 0

/-- Lines 154-162: the maximum amount over all total-keyword lines,
falling back to the largest amount anywhere in the document when that
is still 0.0.  All amounts are non-negative, so `max(amts)` coincides
with a fold of `max` from 0. -/
def extractTotal (lines : List (List Char)) (T : List Char) : ℚ :=
  let t := lines.foldl
    (fun t L =>
      if searchTotalKw L then
        match findFirstAmt L with
        | some q => qMax t q
        | none => t
      else t) 0
  if t = 0 then (findAllAmts T.length T).foldl qMax 0 else t

/-! ## Normalisation and ticket assembly -/

/-- Split on newlines (the `splitlines` of the ASCII texts consumed
here; a trailing empty piece is dropped by the non-empty filter
below). -/
def splitNL : List Char → List (List Char)
  | [] => [[]]
  | '\n' :: cs => [] :: splitNL cs
  | c :: cs =>
      match splitNL cs with
      | [] => [[c]]
      | l :: ls => (c :: l) :: ls

/-- Model of the whitespace collapsing of line 53: each whitespace run becomes a single
space.  The flag records whether the previous character was
whitespace. -/
def collapseWS : Bool → List Char → List Char
  | _, [] => []
  | b, c :: cs =>
      if pySpace c then
        if b then collapseWS true cs else ' ' :: collapseWS true cs
      else c :: collapseWS false cs

/-- Python `str.strip()`. -/
def stripWS (cs : List Char) : List Char :=
  ((cs.dropWhile pySpace).reverse.dropWhile pySpace).reverse

/-- Line 53: non-empty whitespace-collapsed stripped lines.  (The
source filters on `L.strip()` before normalising; a line is kept there
iff its normalised form is non-empty, so filtering afterwards is
equivalent.) -/
def normLines (T : List Char) : List (List Char) :=
  ((splitNL T).map (fun L => stripWS (collapseWS false L))).filter (· ≠ [])

/-- Model of `taxes_sum = sum(components.values())` (line 164). -/
def taxesSumOf (c : TaxComponents) : ℚ :=
  qAdd (qAdd (qAdd (qAdd c.YQ c.YR) c.XT) c.GC) c.I9

/-- Model of `parse_ticket_pdf` from the raw extracted text onward (the
PDF-to-text conversion is the external collaborator of the spec). -/
def parseTicket (raw : String) : ParsedTicket :=
  let T := raw.toList.map Char.toUpper
  let lines := normLines T
  let comps := taxComponentsOf T lines
  let base0 := extractBase lines
  let total := extractTotal lines T
  let taxesSum := taxesSumOf comps
  let base := if base0 = 0 ∧ taxesSum < total ∧ 0 < taxesSum then
    pyRound2 (qSub total taxesSum) else base0
  { carrier := detectCarrier T
    route := detectRoute T
    currency := detectCurrency T
    base := base
    components := comps
    total := total }

/-! ## Store and quote theorems -/

set_option maxRecDepth 40000

/-- The function `pyRound2` agrees with the mathematical description of Python
`round(x, 2)`: scale by 100, take the floor on a non-tie and round to
the nearer integer (`round` rounds halves up, so it is only used on
non-ties), take the even neighbour on a tie, unscale. -/
theorem pyRound2_eq_round (q : ℚ) :
    pyRound2 q =
      (if q * 100 - (⌊q * 100⌋ : ℚ) = 1/2
       then (if ⌊q * 100⌋ % 2 = 0 then ((⌊q * 100⌋ : ℚ)) / 100
             else ((⌊q * 100⌋ : ℚ) + 1) / 100)
       else ((round (q * 100) : ℚ)) / 100) := by
  have hden := q.den_nz
  have hdpos : (0 : ℤ) < (q.den : ℤ) := Int.natCast_pos.mpr q.pos
  have hdq : ((q.den : ℚ)) ≠ 0 := Nat.cast_ne_zero.mpr hden
  have hdq' : (((q.den : ℤ) : ℚ)) ≠ 0 := by exact_mod_cast hdq
  have hx : q * 100 = ((q.num * 100 : ℤ) : ℚ) / ((q.den : ℕ) : ℚ) := by
    conv_lhs => rw [← Rat.num_div_den q]
    push_cast
    ring
  have hfl : ⌊q * 100⌋ = (q.num * 100) / (q.den : ℤ) := by
    rw [hx, Rat.floor_intCast_div_natCast]
  have hfd : Int.fdiv (q.num * 100) (q.den : ℤ) = ⌊q * 100⌋ := by
    rw [hfl]; exact Int.fdiv_eq_ediv _ hdpos.le
  have hfrac : q * 100 - (⌊q * 100⌋ : ℚ) =
      ((q.num * 100 - ⌊q * 100⌋ * (q.den : ℤ) : ℤ) : ℚ) / ((q.den : ℤ) : ℚ) := by
    rw [hx]
    push_cast
    field_simp
    ring
  have tie_iff : (2 * (q.num * 100 - ⌊q * 100⌋ * (q.den : ℤ)) = (q.den : ℤ)) ↔
      (q * 100 - (⌊q * 100⌋ : ℚ) = 1/2) := by
    rw [hfrac, div_eq_div_iff hdq' (by norm_num : (2:ℚ) ≠ 0)]
    constructor
    · intro h
      have h' : ((2 * (q.num * 100 - ⌊q * 100⌋ * (q.den : ℤ)) : ℤ) : ℚ) =
          (((q.den : ℤ) : ℤ) : ℚ) := by exact_mod_cast h
      push_cast at h' ⊢
      linarith
    · intro h
      have : ((2 * (q.num * 100 - ⌊q * 100⌋ * (q.den : ℤ)) : ℤ) : ℚ) = ((q.den : ℤ) : ℚ) := by
        push_cast; push_cast at h; linarith
      exact_mod_cast this
  have h1 : (⌊q * 100⌋ : ℚ) ≤ q * 100 := Int.floor_le _
  have h2 : q * 100 < (⌊q * 100⌋ : ℚ) + 1 := Int.lt_floor_add_one _
  have hround : ¬ (2 * (q.num * 100 - ⌊q * 100⌋ * (q.den : ℤ)) = (q.den : ℤ)) →
      round (q * 100) =
        (if 2 * (q.num * 100 - ⌊q * 100⌋ * (q.den : ℤ)) < (q.den : ℤ) then ⌊q * 100⌋
         else ⌊q * 100⌋ + 1) := by
    intro hne
    rw [round_eq]
    have hfrac' : q * 100 - (⌊q * 100⌋ : ℚ) =
        ((q.num * 100 - ⌊q * 100⌋ * (q.den : ℤ) : ℤ) : ℚ) / ((q.den : ℤ) : ℚ) := hfrac
    have hdq'' : (0:ℚ) < ((q.den : ℤ) : ℚ) := by exact_mod_cast hdpos
    split_ifs with hlt
    · refine Int.floor_eq_iff.mpr ⟨by linarith, ?_⟩
      have : ((2 * (q.num * 100 - ⌊q * 100⌋ * (q.den : ℤ)) : ℤ) : ℚ) < ((q.den : ℤ) : ℚ) := by
        exact_mod_cast hlt
      have hfr : q * 100 - (⌊q * 100⌋ : ℚ) < 1/2 := by
        rw [hfrac']
        rw [div_lt_iff₀ hdq'']
        push_cast at this ⊢
        linarith
      linarith
    · have hgt : (q.den : ℤ) < 2 * (q.num * 100 - ⌊q * 100⌋ * (q.den : ℤ)) :=
        lt_of_le_of_ne (not_lt.mp hlt) (fun h => hne h.symm)
      refine Int.floor_eq_iff.mpr ⟨?_, ?_⟩
      · have : ((q.den : ℤ) : ℚ) < ((2 * (q.num * 100 - ⌊q * 100⌋ * (q.den : ℤ)) : ℤ) : ℚ) := by
          exact_mod_cast hgt
        have hfr : 1/2 < q * 100 - (⌊q * 100⌋ : ℚ) := by
          rw [hfrac', lt_div_iff₀ hdq'']
          push_cast at this ⊢
          linarith
        push_cast
        linarith
      · push_cast
        linarith

  show mkRat _ 100 = _
  rw [Rat.mkRat_eq_div]
  rw [show Int.fdiv (q.num * 100) ((q.den : ℕ) : ℤ) = ⌊q * 100⌋ from hfd]
  by_cases ht : 2 * (q.num * 100 - ⌊q * 100⌋ * (q.den : ℤ)) = (q.den : ℤ)
  · rw [if_pos ht, if_pos (tie_iff.mp ht)]
    by_cases hp : ⌊q * 100⌋ % 2 = 0
    · simp only [if_pos hp]; push_cast; ring
    · simp only [if_neg hp]; push_cast; ring
  · rw [if_neg ht, if_neg (fun hh => ht (tie_iff.mpr hh)), hround ht]
    by_cases hlt : 2 * (q.num * 100 - ⌊q * 100⌋ * (q.den : ℤ)) < (q.den : ℤ)
    · simp only [if_pos hlt]; push_cast; ring
    · simp only [if_neg hlt]; push_cast; ring

theorem qAdd_eq (a b : ℚ) : qAdd a b = a + b := by
  rw [qAdd, Rat.mkRat_eq_div]
  have ha : ((a.den : ℚ)) ≠ 0 := Nat.cast_ne_zero.mpr a.den_nz
  have hb : ((b.den : ℚ)) ≠ 0 := Nat.cast_ne_zero.mpr b.den_nz
  conv_rhs => rw [← Rat.num_div_den a, ← Rat.num_div_den b, div_add_div _ _ ha hb]
  push_cast
  ring_nf

theorem qSub_eq (a b : ℚ) : qSub a b = a - b := by
  rw [qSub, Rat.mkRat_eq_div]
  have ha : ((a.den : ℚ)) ≠ 0 := Nat.cast_ne_zero.mpr a.den_nz
  have hb : ((b.den : ℚ)) ≠ 0 := Nat.cast_ne_zero.mpr b.den_nz
  conv_rhs => rw [← Rat.num_div_den a, ← Rat.num_div_den b, div_sub_div _ _ ha hb]
  push_cast
  ring_nf

theorem qMul_eq (a b : ℚ) : qMul a b = a * b := by
  rw [qMul, Rat.mkRat_eq_div]
  conv_rhs => rw [← Rat.num_div_den a, ← Rat.num_div_den b, div_mul_div_comm]
  push_cast
  ring_nf

theorem qDiv100_eq (a : ℚ) : qDiv100 a = a / 100 := by
  rw [qDiv100, Rat.mkRat_eq_div]
  conv_rhs => rw [← Rat.num_div_den a]
  rw [div_div]
  push_cast
  ring_nf

theorem qMax_eq (a b : ℚ) : qMax a b = max a b := by
  rw [qMax]
  rcases lt_or_ge a b with h | h
  · simp [h, max_eq_right h.le]
  · simp [not_lt.mpr h, max_eq_left h]


theorem lookup_setStore_self (s : RuleStore) (k : String) (r : RuleRecord) :
    lookupStore (setStore s k r) k = some r := by
  induction s with
  | nil => simp [setStore, lookupStore]
  | cons hd tl ih =>
      obtain ⟨k', r'⟩ := hd
      by_cases h : k' = k <;> simp [setStore, lookupStore, h, ih]

theorem setStore_setStore (s : RuleStore) (k : String) (r r' : RuleRecord) :
    setStore (setStore s k r) k r' = setStore s k r' := by
  induction s with
  | nil => simp [setStore]
  | cons hd tl ih =>
      obtain ⟨k'', r''⟩ := hd
      by_cases h : k'' = k <;> simp [setStore, h, ih]

theorem mergeRecord_idem (t : ParsedTicket) (today : String) (r : RuleRecord) :
    mergeRecord t today (mergeRecord t today r) = mergeRecord t today r := by
  simp only [mergeRecord]
  split_ifs <;> rfl

/-- C1: `patch_fare` returns
`selling_platform_total = round2(base + yqyr + xt + gc + i9)` over the
offsets of the resolved record (each defaulting to 0 when absent) and
`final_total = round2(selling_platform_total * (1 + markup_pct/100))`;
on an empty rule store with base fare 238.00 and markup 8.8 the quote
is 238.00 / 258.94 with a null rule key. -/
theorem C1_patch_fare_arithmetic :
    (∀ (store : RuleStore) (b p : ℚ) (c o d cur pos : String),
      (patchFare store b c o d cur pos p).selling_platform_total =
        pyRound2 (b + (findRule store c o d cur pos).2.yqyr_offset.getD 0
          + (findRule store c o d cur pos).2.xt_offset.getD 0
          + (findRule store c o d cur pos).2.gc_tax.getD 0
          + (findRule store c o d cur pos).2.i9_tax.getD 0) ∧
      (patchFare store b c o d cur pos p).final_total =
        pyRound2 ((patchFare store b c o d cur pos p).selling_platform_total
          * (1 + p / 100))) ∧
    (patchFare [] 238 ("CG") ("WWK") ("MAG") ("PGK") ("PG") (8.8 : ℚ)).selling_platform_total
      = 238 ∧
    (patchFare [] 238 ("CG") ("WWK") ("MAG") ("PGK") ("PG") (8.8 : ℚ)).final_total
      = (258.94 : ℚ) ∧
    (patchFare [] 238 ("CG") ("WWK") ("MAG") ("PGK") ("PG") (8.8 : ℚ)).rule_key = none := by
  refine ⟨fun store b p c o d cur pos =>
      ⟨by simp only [patchFare, qAdd_eq], by simp only [patchFare, qMul_eq, qAdd_eq, qDiv100_eq]⟩,
    ?_, ?_, by decide⟩
  · rw [show (8.8 : ℚ) = mkRat 88 10 from by norm_num [Rat.mkRat_eq_div]]
    decide
  · rw [show (8.8 : ℚ) = mkRat 88 10 from by norm_num [Rat.mkRat_eq_div],
      show (258.94 : ℚ) = mkRat 25894 100 from by norm_num [Rat.mkRat_eq_div]]
    decide

/-- C2: the merge step of `upsert_rule` overwrites each of the four
rule fields exactly when the corresponding value derived from the
ticket is nonzero; a zero derived value leaves the previously stored
field (in particular a previously recorded nonzero value) unchanged. -/
theorem C2_upsert_nonzero_merge :
    ∀ (store : RuleStore) (t : ParsedTicket) (pos today : String),
      ((upsertRule store t pos today).2.1).yqyr_offset =
        (if t.components.YQ + t.components.YR ≠ 0
         then some (pyRound2 (t.components.YQ + t.components.YR))
         else ((lookupStore store (ingestKey t pos)).getD {}).yqyr_offset) ∧
      ((upsertRule store t pos today).2.1).xt_offset =
        (if t.components.XT ≠ 0 then some (pyRound2 t.components.XT)
         else ((lookupStore store (ingestKey t pos)).getD {}).xt_offset) ∧
      ((upsertRule store t pos today).2.1).gc_tax =
        (if t.components.GC ≠ 0 then some (pyRound2 t.components.GC)
         else ((lookupStore store (ingestKey t pos)).getD {}).gc_tax) ∧
      ((upsertRule store t pos today).2.1).i9_tax =
        (if t.components.I9 ≠ 0 then some (pyRound2 t.components.I9)
         else ((lookupStore store (ingestKey t pos)).getD {}).i9_tax) := by
  intro store t pos today
  simp only [upsertRule, mergeRecord]
  refine ⟨?_, ?_, ?_, ?_⟩ <;> (split_ifs <;> rfl)

/-- The record used by the C3 reverse-lookup example. -/
def exRec : RuleRecord :=
  { yqyr_offset := some 30, xt_offset := some 16 }

/-- A store holding one rule under `CG|MAG-WWK|PG|PGK`. -/
def exStore : RuleStore := [("CG|MAG-WWK|PG|PGK", exRec)]

/-- C3: `find_rule` tries the forward key, then the reversed-route key,
and returns `(None, {})` as a normal outcome when both are absent; a
rule stored under `CG|MAG-WWK|PG|PGK` is found by a quote with
carrier CG, origin WWK, dest MAG. -/
theorem C3_find_rule_cascade :
    (∀ (store : RuleStore) (c o d cur pos : String) (r : RuleRecord),
      lookupStore store (quoteFwdKey c o d cur pos) = some r →
      findRule store c o d cur pos = (some (quoteFwdKey c o d cur pos), r)) ∧
    (∀ (store : RuleStore) (c o d cur pos : String) (r : RuleRecord),
      lookupStore store (quoteFwdKey c o d cur pos) = none →
      lookupStore store (quoteRevKey c o d cur pos) = some r →
      findRule store c o d cur pos = (some (quoteRevKey c o d cur pos), r)) ∧
    (∀ (store : RuleStore) (c o d cur pos : String),
      lookupStore store (quoteFwdKey c o d cur pos) = none →
      lookupStore store (quoteRevKey c o d cur pos) = none →
      findRule store c o d cur pos = (none, ({} : RuleRecord))) ∧
    findRule exStore ("CG") ("WWK") ("MAG") ("PGK") ("PG") = (some ("CG|MAG-WWK|PG|PGK"), exRec) := by
  refine ⟨?_, ?_, ?_, by decide⟩
  · intro store c o d cur pos r h
    simp only [findRule, h]
  · intro store c o d cur pos r h1 h2
    simp only [findRule, h1, h2]
  · intro store c o d cur pos h1 h2
    simp only [findRule, h1, h2]

theorem C3_find_rule_cascade_witness :
    findRule exStore ("CG") ("WWK") ("MAG") ("PGK") ("PG") =
      (some (quoteRevKey ("CG") ("WWK") ("MAG") ("PGK") ("PG")), exRec) :=
  C3_find_rule_cascade.2.1 exStore ("CG") ("WWK") ("MAG") ("PGK") ("PG") exRec
    (by decide) (by decide)

/-- C9: with the point of sale and the current date fixed, upserting
the same parsed ticket twice yields the same key, the same rule record
and the same store contents as upserting it once. -/
theorem C9_upsert_idempotent :
    ∀ (store : RuleStore) (t : ParsedTicket) (pos today : String),
      upsertRule (upsertRule store t pos today).2.2 t pos today =
        upsertRule store t pos today := by
  intro store t pos today
  simp only [upsertRule]
  rw [lookup_setStore_self]
  simp only [Option.getD_some]
  rw [mergeRecord_idem, setStore_setStore]

/-! ## Parser theorems -/

/-- C6: if both carrier markers match, the later CG check wins; if
exactly one matches, that carrier is detected; if neither matches, the
carrier is UNK. -/
theorem C6_carrier_precedence :
    ∀ T : List Char,
      (pxMarker T = true → cgMarker T = true → detectCarrier T = "CG") ∧
      (pxMarker T = true → cgMarker T = false → detectCarrier T = "PX") ∧
      (pxMarker T = false → cgMarker T = true → detectCarrier T = "CG") ∧
      (pxMarker T = false → cgMarker T = false → detectCarrier T = "UNK") := by
  intro T
  refine ⟨fun h1 h2 => ?_, fun h1 h2 => ?_, fun h1 h2 => ?_, fun h1 h2 => ?_⟩ <;>
    simp [detectCarrier, h1, h2]

theorem C6_carrier_precedence_witness :
    detectCarrier ("PX CG".toList) = "CG" :=
  (C6_carrier_precedence ("PX CG".toList)).1 (by decide) (by decide)

/-- C7 as stated is false on the code: the text `"USD 100.00"` contains
the standalone 3-letter ISO-like code USD, yet the detector returns
PGK, which occurs nowhere in the text — the regex is the literal
`\b(PGK)\b`, not a generic 3-letter-code pattern. -/
theorem C7_counterexample :
    detectCurrency ("USD 100.00".toList) = "PGK" ∧
    searchWord ['U', 'S', 'D'] ("USD 100.00".toList) = true ∧
    containsLit ['P', 'G', 'K'] ("USD 100.00".toList) = false := by
  decide

/-- C7 amended: the currency detector only searches for the fixed home
currency code PGK (word-bounded) and defaults to PGK when absent, so
the detected currency is always "PGK"; no other code is ever
extracted. -/
theorem C7_currency_always_home :
    ∀ T : List Char, detectCurrency T = "PGK" := by
  intro T
  unfold detectCurrency findPGK
  split_ifs <;> rfl

/-- C5: the route cascade returns the result of strategy 1 whenever the
FROM/TO pattern matches with whitelisted codes, regardless of whether
the strategy-3 pair pattern also matches. -/
theorem C5_route_cascade_order :
    ∀ (T : List Char) (a b : String) (p : String × String),
      searchFromTo T = some (a, b) →
      IATA.contains a = true → IATA.contains b = true →
      (findPairs T).find? validPair = some p →
      detectRoute T = a ++ "-" ++ b := by
  intro T a b p h1 h2 h3 _
  unfold detectRoute
  rw [h1]
  have hc : (IATA.contains a && IATA.contains b) = true := by rw [h2, h3]; rfl
  show (if (IATA.contains a && IATA.contains b) = true then a ++ "-" ++ b
    else routeBCD T) = a ++ "-" ++ b
  rw [if_pos hc]

theorem C5_route_cascade_order_witness :
    detectRoute ("FROM POM TO LAE\nGUR-WWK".toList) = "POM-LAE" := by
  exact C5_route_cascade_order _ ("POM") ("LAE") ("GUR", "WWK")
    (by decide) (by decide) (by decide) (by decide)

/-- C4 as stated is false on the code: the alias patterns only match
the amount-before-code ordering, and the first match of `UN` in
`"XT 10.00\nUN 5.00"` is the amount 10.00 followed (across the
newline) by `UN`, so the XT component ends at 20.00, not 15.00. -/
theorem C4_counterexample :
    (parseTicket ("XT 10.00\nUN 5.00")).components.XT = 20 ∧
    ¬ (parseTicket ("XT 10.00\nUN 5.00")).components.XT = 15 := by
  decide

/-- C4 amended: for each alias code UN, NX, the first match in the
whole text of an amount followed by the alias code (optionally
preceded by a currency marker) has its amount added into the XT
component (rounded to 2 decimals), never replacing it; a code-before-
amount occurrence such as `"UN 5.00"` is not matched; in particular a
document containing `"XT 10.00"` and `"5.00 UN"` yields XT = 15.00. -/
theorem C4_alias_folding_amended :
    (∀ (T : List Char) (comps : TaxComponents) (al : List Char) (v : ℚ),
      searchAmtCode al T = some v →
      aliasStep T comps al = comps.set .XT (pyRound2 (comps.get .XT + v))) ∧
    (∀ (T : List Char) (comps : TaxComponents) (al : List Char),
      searchAmtCode al T = none → aliasStep T comps al = comps) ∧
    searchAmtCode ['U', 'N'] ("UN 5.00".toList) = none ∧
    (parseTicket ("XT 10.00\n5.00 UN")).components.XT = 15 := by
  refine ⟨?_, ?_, by decide, by decide⟩
  · intro T comps al v h
    simp [aliasStep, h, qAdd_eq]
  · intro T comps al h
    simp [aliasStep, h]

theorem C4_alias_folding_amended_witness :
    aliasStep ("7.00 UN".toList) {} ['U', 'N'] =
      TaxComponents.set {} .XT (pyRound2 (TaxComponents.get {} .XT + 7)) :=
  C4_alias_folding_amended.1 ("7.00 UN".toList) {} ['U', 'N'] 7 (by decide)

theorem routeD_whitelist (T : List Char) :
    routeD T = "UNK-UNK" ∨
      ∃ a b : String, routeD T = a ++ "-" ++ b ∧
        IATA.contains a = true ∧ IATA.contains b = true := by
  unfold routeD
  cases h : (tokens3 (fcLine T)).filter fcTokenOk with
  | nil => left; rfl
  | cons a rest =>
    cases rest with
    | nil => left; rfl
    | cons b rest2 =>
      right
      refine ⟨a, b, rfl, ?_, ?_⟩
      · have ha : a ∈ (tokens3 (fcLine T)).filter fcTokenOk := by
          rw [h]; exact List.mem_cons_self a (b :: rest2)
        have := List.of_mem_filter ha
        simp only [fcTokenOk, Bool.and_eq_true] at this
        exact this.1.1
      · have hb : b ∈ (tokens3 (fcLine T)).filter fcTokenOk := by
          rw [h]; exact List.mem_cons_of_mem a (List.mem_cons_self b rest2)
        have := List.of_mem_filter hb
        simp only [fcTokenOk, Bool.and_eq_true] at this
        exact this.1.1

theorem routeCD_whitelist (T : List Char) :
    routeCD T = "UNK-UNK" ∨
      ∃ a b : String, routeCD T = a ++ "-" ++ b ∧
        IATA.contains a = true ∧ IATA.contains b = true := by
  unfold routeCD
  cases h : (findPairs T).find? validPair with
  | none => exact routeD_whitelist T
  | some p =>
    obtain ⟨a, b⟩ := p
    right
    have hv := List.find?_some h
    simp only [validPair, Bool.and_eq_true] at hv
    exact ⟨a, b, rfl, hv.1.2, hv.2⟩

theorem ite_route_whitelist (c : Bool) (a b fb : String)
    (hf : fb = "UNK-UNK" ∨
      ∃ x y : String, fb = x ++ "-" ++ y ∧
        IATA.contains x = true ∧ IATA.contains y = true)
    (hab : c = true → IATA.contains a = true ∧ IATA.contains b = true) :
    (if c = true then a ++ "-" ++ b else fb) = "UNK-UNK" ∨
      ∃ x y : String, (if c = true then a ++ "-" ++ b else fb) = x ++ "-" ++ y ∧
        IATA.contains x = true ∧ IATA.contains y = true := by
  by_cases hc : c = true
  · rw [if_pos hc]
    exact Or.inr ⟨a, b, rfl, (hab hc).1, (hab hc).2⟩
  · rw [if_neg hc]
    exact hf

theorem routeBCD_whitelist (T : List Char) :
    routeBCD T = "UNK-UNK" ∨
      ∃ a b : String, routeBCD T = a ++ "-" ++ b ∧
        IATA.contains a = true ∧ IATA.contains b = true := by
  unfold routeBCD
  cases h1 : searchOrigin T with
  | none => cases h2 : searchDest T <;> exact routeCD_whitelist T
  | some a =>
    cases h2 : searchDest T with
    | none => exact routeCD_whitelist T
    | some b =>
      exact ite_route_whitelist (IATA.contains a && IATA.contains b) a b
        (routeCD T) (routeCD_whitelist T)
        (fun hc => by simpa only [Bool.and_eq_true] using hc)

theorem detectRoute_whitelist (T : List Char) :
    detectRoute T = "UNK-UNK" ∨
      ∃ a b : String, detectRoute T = a ++ "-" ++ b ∧
        IATA.contains a = true ∧ IATA.contains b = true := by
  unfold detectRoute
  cases h1 : searchFromTo T with
  | none => exact routeBCD_whitelist T
  | some p =>
    obtain ⟨a, b⟩ := p
    exact ite_route_whitelist (IATA.contains a && IATA.contains b) a b
      (routeBCD T) (routeBCD_whitelist T)
      (fun hc => by simpa only [Bool.and_eq_true] using hc)

/-- C10: the route produced by the parser is either the sentinel
`"UNK-UNK"` or `"A-B"` with both codes in the fixed whitelist
`IATA = PNG ∪ REG`; every route strategy validates its candidates
against the whitelist before accepting them. -/
theorem C10_route_whitelist :
    ∀ raw : String,
      (parseTicket raw).route = "UNK-UNK" ∨
      ∃ a b : String, (parseTicket raw).route = a ++ "-" ++ b ∧
        IATA.contains a = true ∧ IATA.contains b = true := by
  intro raw
  show detectRoute (raw.toList.map Char.toUpper) = "UNK-UNK" ∨ _
  exact detectRoute_whitelist (raw.toList.map Char.toUpper)

/-- C8: the only cross-field derivation of the parser is the derived-
base rule: when the extracted base is still 0.0 and the extracted
total strictly exceeds the (positive) sum of the five tax components,
base becomes `round2(total - taxes_sum)`; otherwise base is the
extracted value, and every other field is exactly its extractor
output.  The concrete instance exercises the derived branch:
`"TAX GC 22.80"` with total 100.00 yields base 77.20. -/
theorem C8_derived_base :
    (∀ c : TaxComponents, taxesSumOf c = c.YQ + c.YR + c.XT + c.GC + c.I9) ∧
    (∀ raw : String,
      (parseTicket raw).base =
        (if extractBase (normLines (raw.toList.map Char.toUpper)) = 0 ∧
            taxesSumOf (parseTicket raw).components < (parseTicket raw).total ∧
            0 < taxesSumOf (parseTicket raw).components
         then pyRound2 ((parseTicket raw).total - taxesSumOf (parseTicket raw).components)
         else extractBase (normLines (raw.toList.map Char.toUpper))) ∧
      (parseTicket raw).total =
        extractTotal (normLines (raw.toList.map Char.toUpper)) (raw.toList.map Char.toUpper) ∧
      (parseTicket raw).components =
        taxComponentsOf (raw.toList.map Char.toUpper) (normLines (raw.toList.map Char.toUpper)) ∧
      (parseTicket raw).carrier = detectCarrier (raw.toList.map Char.toUpper) ∧
      (parseTicket raw).route = detectRoute (raw.toList.map Char.toUpper) ∧
      (parseTicket raw).currency = detectCurrency (raw.toList.map Char.toUpper)) ∧
    (parseTicket ("TAX GC 22.80\nTOTAL 100.00")).base = mkRat 7720 100 ∧
    extractBase (normLines ("TAX GC 22.80\nTOTAL 100.00".toList)) = 0 := by
  refine ⟨fun c => by simp [taxesSumOf, qAdd_eq], fun raw => ?_, by decide, by decide⟩
  refine ⟨?_, rfl, rfl, rfl, rfl, rfl⟩
  simp only [parseTicket, qSub_eq]
